import Mathlib

/-!
Verification of the 8D-report review engine of
`src/skills/q-skill-8d/src/q_skill_8d/server.py`.

Strings are modelled as `List Char`.  Python `str.lower` is modelled by
ASCII lowering (`Char.toLower`); every keyword appearing in the source is
either ASCII or Chinese (caseless), so the embedding agrees with the
source on all keyword tests.  Python's regex `\d` and the literal class
`0-9` are modelled by `Char.isDigit`; `\s`, `str.strip` and
`str.isspace` use the whitespace set `pySpace` below.
-/

namespace QSkill8D

/-- Characters Python treats as whitespace (`str.isspace`, regex `\s`). -/
def pySpace (c : Char) : Bool :=
  c == ' ' || c == '\t' || c == '\n' || c == '\r' || c == '\x0b' || c == '\x0c' ||
  c == '\x1c' || c == '\x1d' || c == '\x1e' || c == '\x1f' || c == '\x85' ||
  c == '\xa0' || c == '\u1680' || (decide ('\u2000' ≤ c) && decide (c ≤ '\u200a')) ||
  c == '\u2028' || c == '\u2029' || c == '\u202f' || c == '\u205f' || c == '\u3000'

/-- Python `str.lower`, restricted to ASCII case mapping. -/
def pyLower (l : List Char) : List Char := l.map Char.toLower

/-- `startsWith hay needle` holds when `needle` is a prefix of `hay`. -/
def startsWith : List Char → List Char → Bool
  | _, [] => true
  | [], _ :: _ => false
  | c :: cs, d :: ds => c == d && startsWith cs ds

/-- `containsSub needle hay` is Python's substring test `needle in hay`. -/
def containsSub (needle : List Char) : List Char → Bool
  | [] => needle.isEmpty
  | c :: rest => startsWith (c :: rest) needle || containsSub needle rest

/-- Python `kw.lower() in content.lower()`. -/
def containsCI (content kw : List Char) : Bool :=
  containsSub (pyLower kw) (pyLower content)

/-- Python `any(kw.lower() in content.lower() for kw in kws)`. -/
def anyKeyword (content : List Char) (kws : List (List Char)) : Bool :=
  kws.any (fun kw => containsCI content kw)

/-- Helper turning string literals into the `List Char` representation. -/
def strs (l : List String) : List (List Char) := l.map String.data

/-- Python `str.lstrip()`. -/
def pyLstrip (l : List Char) : List Char := l.dropWhile pySpace

/-- Python `str.rstrip()`. -/
def pyRstrip (l : List Char) : List Char := (l.reverse.dropWhile pySpace).reverse

/-- Python `str.strip()`. -/
def pyStrip (l : List Char) : List Char := pyRstrip (pyLstrip l)

/-! ## The numeric-percent pattern of `review_d6`

`re.search(r'\d+\.?\d*\s*[%％]', content)`.  The pattern is
backtracking-free: the greedy digit run, the optional dot, the second
digit run and the whitespace run are all forced, so a match exists at a
position iff the deterministic scan below succeeds there. -/

/-- Match the tail `\.?\d*\s*[%％]` of the percent pattern. -/
def afterIntPart (l : List Char) : Bool :=
  let l2 := match l with
    | '.' :: r => r.dropWhile Char.isDigit
    | _ => l
  match l2.dropWhile pySpace with
  | c :: _ => c == '%' || c == '％'
  | [] => false

/-- The regex `\d+\.?\d*\s*[%％]` matches at the head of `l`. -/
def matchPercentAt : List Char → Bool
  | [] => false
  | c :: rest => c.isDigit && afterIntPart (rest.dropWhile Char.isDigit)

/-- Python `re.search(r'\d+\.?\d*\s*[%％]', content)` as a Boolean. -/
def searchPercent : List Char → Bool
  | [] => false
  | c :: rest => matchPercentAt (c :: rest) || searchPercent rest

/-! ## `review_d6` (server.py lines 234-262) -/

def production_keywords : List (List Char) :=
  strs ["生产验证", "批量验证", "量产", "生产数据", "良率", "production", "run", "batch", "manufacturing"]

def experiment_keywords : List (List Char) :=
  strs ["实验验证", "测试", "试验", "CPK", "数据", "合格率", "experiment", "test", "trial", "lab"]

def d6_data_keywords : List (List Char) :=
  strs ["OK", "合格", "通过", "达标", "pass", "accepted", "good"]

structure D6Result where
  passed : Bool
  has_production_verification : Bool
  has_experiment_verification : Bool
  has_data : Bool
  issues : List String
  comment : String

/-- `review_d6` from the source, field for field. -/
def review_d6 (content : List Char) : D6Result :=
  let has_production := anyKeyword content production_keywords
  let has_experiment := anyKeyword content experiment_keywords
  let has_data := searchPercent content || anyKeyword content d6_data_keywords
  let passed := (has_production || has_experiment) && has_data
  let issues :=
    (if !(has_production || has_experiment) then
      ["Validation method not specified (Production or Experiment)"] else [])
    ++ (if !has_data then ["No validation data provided"] else [])
  { passed := passed
    has_production_verification := has_production
    has_experiment_verification := has_experiment
    has_data := has_data
    issues := issues
    comment := if passed then "Pass" else "Issues: " ++ String.intercalate "; " issues }

/-! ## `review_d5` (server.py lines 204-231) -/

def measure_keywords : List (List Char) :=
  strs ["措施", "改善", "对策", "纠正", "改进", "整改", "action", "measure", "correction", "fix"]

def owner_keywords : List (List Char) :=
  strs ["责任人", "负责人", "执行人", "担当", "owner", "responsible", "person", "lead"]

def deadline_keywords : List (List Char) :=
  strs ["完成时间", "期限", "日期", "月", "日", "date", "deadline", "due", "time"]

structure D5Result where
  passed : Bool
  has_measures : Bool
  has_owner : Bool
  has_deadline : Bool
  issues : List String
  comment : String

/-- `review_d5(content, d4_content)` from the source.  The body never
reads `d4_content`, exactly as in the source. -/
def review_d5 (content d4_content : List Char) : D5Result :=
  let has_measures := anyKeyword content measure_keywords
  let has_owner := anyKeyword content owner_keywords
  let has_deadline := anyKeyword content deadline_keywords
  let issues :=
    (if !has_measures then ["No specific actions described"] else [])
    ++ (if !has_owner then ["Missing owner"] else [])
    ++ (if !has_deadline then ["Missing deadline"] else [])
  let passed := issues.length == 0
  { passed := passed
    has_measures := has_measures
    has_owner := has_owner
    has_deadline := has_deadline
    issues := issues
    comment := if passed then "Pass" else "Issues: " ++ String.intercalate "; " issues }

/-! ## `review_d3` (server.py lines 139-164) -/

def d3_wip : List (List Char) :=
  strs ["在制", "正在生产", "生产中", "在产", "WIP", "production", "in-process"]

def d3_transit : List (List Char) :=
  strs ["在途", "运输中", "物流", "发运", "transit", "shipping", "shipment"]

def d3_customer_site : List (List Char) :=
  strs ["客户现场", "客户处", "客户端", "现场", "customer site", "on-site", "onsite"]

def d3_customer_stock : List (List Char) :=
  strs ["客户库存", "客户仓库", "客户处库存", "customer stock", "customer warehouse"]

def d3_internal_stock : List (List Char) :=
  strs ["我司", "本司", "公司", "仓库", "产线", "车间", "internal stock", "internal inventory", "warehouse", "stock", "inventory"]

/-- The D3 keyword table, in the source's (insertion) iteration order. -/
def d3_keywords : List (String × List (List Char)) :=
  [("WIP", d3_wip), ("In-transit", d3_transit), ("Customer Site", d3_customer_site),
   ("Customer Stock", d3_customer_stock), ("Internal Stock", d3_internal_stock)]

structure D3Result where
  passed : Bool
  found_locations : List String
  missing_locations : List String
  comment : String

/-- `review_d3` from the source: the loop over the keyword table builds
`found` and `missing` in table order. -/
def review_d3 (content : List Char) : D3Result :=
  let found : List (String × Bool) :=
    d3_keywords.map (fun q => (q.1, anyKeyword content q.2))
  let missing : List String := (found.filter (fun q => !q.2)).map Prod.fst
  let passed := missing.length == 0
  { passed := passed
    found_locations := (found.filter (fun q => q.2)).map Prod.fst
    missing_locations := missing
    comment :=
      if passed then "Pass"
      else "Missing containment for: " ++ String.intercalate ", " missing }

/-! ## Verdict aggregation (server.py lines 388-390) -/

structure ReviewsPassed where
  d3 : Bool
  d4 : Bool
  d5 : Bool
  d6 : Bool
  d7 : Bool
  d8 : Bool

/-- The `reviews[s]["passed"]` lookup used by the aggregator. -/
def reviewPassed (r : ReviewsPassed) (s : String) : Bool :=
  if s = "D3" then r.d3 else if s = "D4" then r.d4 else if s = "D5" then r.d5
  else if s = "D6" then r.d6 else if s = "D7" then r.d7
  else if s = "D8" then r.d8 else false

def critical_sections : List String := ["D3", "D4", "D5", "D6", "D7"]

/-- `failed_sections = [s for s in critical_sections if not reviews[s]["passed"]]`. -/
def failed_sections (r : ReviewsPassed) : List String :=
  critical_sections.filter (fun s => !reviewPassed r s)

/-- `overall_passed = len(failed_sections) == 0`. -/
def overall_passed (r : ReviewsPassed) : Bool :=
  (failed_sections r).length == 0

/-! ## Claims C1, C2, C3, C8, C10 -/

/-- Claim C1: the overall verdict passes iff every critical section
D3, D4, D5, D6, D7 passes; the D8 result never influences the verdict or
the failed-section list; and `failed_sections` contains, as a sublist of
the fixed order D3, D4, D5, D6, D7, exactly the critical labels whose
result is not passed (never D8). -/
theorem verdict_aggregator_spec (r : ReviewsPassed) :
    ((overall_passed r = true ↔
      (r.d3 = true ∧ r.d4 = true ∧ r.d5 = true ∧ r.d6 = true ∧ r.d7 = true))
     ∧ (∀ b, overall_passed { r with d8 := b } = overall_passed r
          ∧ failed_sections { r with d8 := b } = failed_sections r)
     ∧ ("D3" ∈ failed_sections r ↔ r.d3 = false)
     ∧ ("D4" ∈ failed_sections r ↔ r.d4 = false)
     ∧ ("D5" ∈ failed_sections r ↔ r.d5 = false)
     ∧ ("D6" ∈ failed_sections r ↔ r.d6 = false)
     ∧ ("D7" ∈ failed_sections r ↔ r.d7 = false)
     ∧ ¬ "D8" ∈ failed_sections r)
    ∧ List.Sublist (failed_sections r) critical_sections := by
  constructor
  · obtain ⟨a, b, c, d, e, f⟩ := r
    cases a <;> cases b <;> cases c <;> cases d <;> cases e <;> cases f <;> decide
  · exact List.filter_sublist _

/-- Claim C2: D6 passes iff (production or experiment verification) and
data; `has_data` holds iff the numeric-percent pattern matches or a
pass/accepted-style keyword from the fixed list occurs as a
case-insensitive substring. -/
theorem review_d6_pass_iff (content : List Char) :
    ((review_d6 content).passed = true ↔
      (((review_d6 content).has_production_verification = true ∨
        (review_d6 content).has_experiment_verification = true) ∧
       (review_d6 content).has_data = true))
    ∧ ((review_d6 content).has_data = true ↔
       (searchPercent content = true ∨ anyKeyword content d6_data_keywords = true)) := by
  constructor <;> simp [review_d6]

/-- Claim C3: D3 passes iff all five location categories are found by
case-insensitive keyword match, and the missing-location list is exactly
the complement of the found-location list over the five categories. -/
theorem review_d3_pass_iff (content : List Char) :
    ((review_d3 content).passed = true ↔
      (anyKeyword content d3_wip = true ∧ anyKeyword content d3_transit = true ∧
       anyKeyword content d3_customer_site = true ∧ anyKeyword content d3_customer_stock = true ∧
       anyKeyword content d3_internal_stock = true))
    ∧ ("WIP" ∈ (review_d3 content).missing_locations ↔ anyKeyword content d3_wip = false)
    ∧ ("In-transit" ∈ (review_d3 content).missing_locations ↔ anyKeyword content d3_transit = false)
    ∧ ("Customer Site" ∈ (review_d3 content).missing_locations ↔ anyKeyword content d3_customer_site = false)
    ∧ ("Customer Stock" ∈ (review_d3 content).missing_locations ↔ anyKeyword content d3_customer_stock = false)
    ∧ ("Internal Stock" ∈ (review_d3 content).missing_locations ↔ anyKeyword content d3_internal_stock = false)
    ∧ ("WIP" ∈ (review_d3 content).found_locations ↔ anyKeyword content d3_wip = true)
    ∧ ("In-transit" ∈ (review_d3 content).found_locations ↔ anyKeyword content d3_transit = true)
    ∧ ("Customer Site" ∈ (review_d3 content).found_locations ↔ anyKeyword content d3_customer_site = true)
    ∧ ("Customer Stock" ∈ (review_d3 content).found_locations ↔ anyKeyword content d3_customer_stock = true)
    ∧ ("Internal Stock" ∈ (review_d3 content).found_locations ↔ anyKeyword content d3_internal_stock = true) := by
  cases h1 : anyKeyword content d3_wip <;>
    cases h2 : anyKeyword content d3_transit <;>
      cases h3 : anyKeyword content d3_customer_site <;>
        cases h4 : anyKeyword content d3_customer_stock <;>
          cases h5 : anyKeyword content d3_internal_stock <;>
            simp [review_d3, d3_keywords, h1, h2, h3, h4, h5]

/-- Claim C8: the D5 evaluation is independent of the D4 text parameter;
the source body never inspects its second parameter. -/
theorem review_d5_ignores_d4 (content d4a d4b : List Char) :
    review_d5 content d4a = review_d5 content d4b := rfl

/-- Claim C10: any content whose lowercase form contains the two-letter
substring "ok" makes `review_d6` report data present, because the keyword
"OK" is matched by case-insensitive substring containment. -/
theorem review_d6_ok_substring_has_data (content : List Char)
    (h : containsSub "ok".data (pyLower content) = true) :
    (review_d6 content).has_data = true := by
  have hkw : containsCI content "OK".data = true := by
    have : pyLower "OK".data = "ok".data := by decide
    simp [containsCI, this, h]
  have hkw2 : containsCI content ['O', 'K'] = true := hkw
  have hany : anyKeyword content d6_data_keywords = true := by
    simp [anyKeyword, d6_data_keywords, strs, hkw2]
  simp [review_d6, hany]

/-- Witness for claim C10 at the concrete content "broken". -/
theorem review_d6_ok_substring_has_data_witness :
    (review_d6 "broken".data).has_data = true :=
  review_d6_ok_substring_has_data "broken".data (by decide)

/-! ## `extract_8d_sections` (server.py lines 108-132)

Each pattern `Dk[\.、:：\s]*(.*?)(?=D(k+1)[\.、:：\s]|$)` (flags
`DOTALL | IGNORECASE`; the `D8` pattern ends in `(.*?)$` instead of the
lookahead) is deterministic: `re.search` succeeds exactly at the first
(case-insensitive) occurrence of the two-character label token, the
greedy separator class run is forced, and the lazy group grows until the
first position where the lookahead `D(k+1)` followed by a separator
matches, or where `$` matches (end of string, or just before a trailing
newline).  Since `$` always matches at the end, the pattern matches iff
the label token occurs. -/

/-- The regex class `[\.、:：\s]`. -/
def isSep (c : Char) : Bool :=
  c == '.' || c == '、' || c == ':' || c == '：' || pySpace c

/-- Case-insensitive match of the letter `D`. -/
def isD (c : Char) : Bool := c == 'D' || c == 'd'

/-- Scan for the first case-insensitive occurrence of the token `D` ++
`lab`; return the suffix just after the token. -/
def findLabel (lab : Char) : List Char → Option (List Char)
  | [] => none
  | [_] => none
  | d :: c :: rest =>
    if isD d && c == lab then some rest else findLabel lab (c :: rest)

/-- Position at which the lazy group stops: the lookahead
`D(next)[\.、:：\s]` holds on the remaining suffix, or `$` holds (the
suffix is empty or a single trailing newline). -/
def lazyStop (next : Option Char) (l : List Char) : Bool :=
  (match next, l with
   | some ch, d :: c :: s :: _ => isD d && c == ch && isSep s
   | _, _ => false)
  || l.isEmpty || l == ['\n']

/-- Characters captured by the lazy group `(.*?)`. -/
def takeUntilStop (next : Option Char) : List Char → List Char
  | [] => []
  | c :: rest =>
    if lazyStop next (c :: rest) then [] else c :: takeUntilStop next rest

/-- One pattern of `extract_8d_sections`: `re.search` followed by
`match.group(1).strip()`. -/
def searchSection (lab : Char) (next : Option Char) (t : List Char) :
    Option (List Char) :=
  (findLabel lab t).map (fun rest => pyStrip (takeUntilStop next (rest.dropWhile isSep)))

/-- The `sections` dict initialised with the eight keys. -/
def sections0 : List (String × List Char) :=
  [("D1", []), ("D2", []), ("D3", []), ("D4", []),
   ("D5", []), ("D6", []), ("D7", []), ("D8", [])]

/-- The `patterns` list: label digit, next label digit (none for `D8`),
and the dict key written on a match. -/
def patterns : List (Char × Option Char × String) :=
  [('1', some '2', "D1"), ('2', some '3', "D2"), ('3', some '4', "D3"),
   ('4', some '5', "D4"), ('5', some '6', "D5"), ('6', some '7', "D6"),
   ('7', some '8', "D7"), ('8', none, "D8")]

/-- `sections[section] = value` on the association list. -/
def setKey (k : String) (v : List Char) (l : List (String × List Char)) :
    List (String × List Char) :=
  l.map (fun q => if q.1 = k then (k, v) else q)

/-- One iteration of the `for pattern, section in patterns` loop. -/
def applyPattern (t : List Char) (secs : List (String × List Char))
    (q : Char × Option Char × String) : List (String × List Char) :=
  match searchSection q.1 q.2.1 t with
  | some v => setKey q.2.2 v secs
  | none => secs

/-- `extract_8d_sections` from the source. -/
def extract_8d_sections (t : List Char) : List (String × List Char) :=
  patterns.foldl (applyPattern t) sections0

/-- Dictionary lookup on the association list. -/
def lookupKey (k : String) : List (String × List Char) → Option (List Char)
  | [] => none
  | q :: rest => if q.1 = k then some q.2 else lookupKey k rest

theorem map_fst_setKey (k : String) (v : List Char) :
    ∀ l : List (String × List Char), (setKey k v l).map Prod.fst = l.map Prod.fst := by
  intro l
  induction l with
  | nil => rfl
  | cons q rest ih =>
    by_cases h : q.1 = k <;> simp [setKey, h] at ih ⊢ <;> simpa [setKey] using ih

theorem map_fst_applyPattern (t : List Char) (q : Char × Option Char × String)
    (secs : List (String × List Char)) :
    (applyPattern t secs q).map Prod.fst = secs.map Prod.fst := by
  unfold applyPattern
  cases searchSection q.1 q.2.1 t <;> simp [map_fst_setKey]

theorem map_fst_fold (t : List Char) :
    ∀ (ps : List (Char × Option Char × String)) (secs : List (String × List Char)),
      ((ps.foldl (applyPattern t) secs).map Prod.fst) = secs.map Prod.fst := by
  intro ps
  induction ps with
  | nil => intro secs; rfl
  | cons q rest ih =>
    intro secs
    simpa [List.foldl, map_fst_applyPattern] using ih (applyPattern t secs q)

theorem lookupKey_setKey_ne {k q : String} (v : List Char)
    (h : q ≠ k) :
    ∀ l, lookupKey k (setKey q v l) = lookupKey k l := by
  intro l
  induction l with
  | nil => rfl
  | cons p rest ih =>
    by_cases hp : p.1 = q
    · have hk : ¬ p.1 = k := by rw [hp]; exact h
      simp only [setKey, List.map_cons, if_pos hp, lookupKey, if_neg h, if_neg hk]
      exact ih
    · by_cases hk : p.1 = k
      · simp only [setKey, List.map_cons, if_neg hp, lookupKey, if_pos hk]
      · simp only [setKey, List.map_cons, if_neg hp, lookupKey, if_neg hk]
        exact ih

theorem lookupKey_fold_none (t : List Char) (k : String) :
    ∀ (ps : List (Char × Option Char × String)) (secs : List (String × List Char)),
      (∀ q ∈ ps, q.2.2 = k → searchSection q.1 q.2.1 t = none) →
      lookupKey k (ps.foldl (applyPattern t) secs) = lookupKey k secs := by
  intro ps
  induction ps with
  | nil => intro secs _; rfl
  | cons q rest ih =>
    intro secs hnone
    have hstep : lookupKey k (applyPattern t secs q) = lookupKey k secs := by
      unfold applyPattern
      by_cases hq : q.2.2 = k
      · rw [hnone q (by simp) hq]
      · cases hs : searchSection q.1 q.2.1 t <;> simp [lookupKey_setKey_ne _ hq]
    have := ih (applyPattern t secs q) (fun p hp => hnone p (by simp [hp]))
    simpa [List.foldl, hstep] using this

/-- Claim C4: for every input string the segmenter is total and returns
an association list whose keys are exactly D1..D8 in order, each mapped
to a (possibly empty) string; a label whose pattern has no match keeps
the empty string. -/
theorem extract_8d_sections_shape (t : List Char) :
    ((extract_8d_sections t).map Prod.fst =
      ["D1", "D2", "D3", "D4", "D5", "D6", "D7", "D8"])
    ∧ ∀ q ∈ patterns, searchSection q.1 q.2.1 t = none →
        lookupKey q.2.2 (extract_8d_sections t) = some [] := by
  constructor
  · rw [extract_8d_sections, map_fst_fold]
    rfl
  · intro q hq hnone
    have hfold :
        lookupKey q.2.2 (extract_8d_sections t) = lookupKey q.2.2 sections0 := by
      rw [extract_8d_sections]
      apply lookupKey_fold_none
      intro p hp hk
      simp only [patterns, List.mem_cons, List.not_mem_nil, or_false] at hp hq
      rcases hq with rfl|rfl|rfl|rfl|rfl|rfl|rfl|rfl <;>
        rcases hp with rfl|rfl|rfl|rfl|rfl|rfl|rfl|rfl <;>
          first
            | exact hnone
            | exact absurd hk (by decide)
    rw [hfold]
    simp only [patterns, List.mem_cons, List.not_mem_nil, or_false] at hq
    rcases hq with rfl|rfl|rfl|rfl|rfl|rfl|rfl|rfl <;> rfl

/-- Witness for claim C4: the D1 pattern has no match in "hello", so the
D1 section is empty. -/
theorem extract_8d_sections_shape_witness :
    lookupKey "D1" (extract_8d_sections "hello".data) = some [] :=
  (extract_8d_sections_shape "hello".data).2 ('1', some '2', "D1")
    (by decide) (by decide)

/-- Claim C5: segmentation is non-exclusive.  On the document
"D1: alpha\nD3: beta", which has D1 and D3 label tokens but no D2 token,
the captured D1 section runs past the D3 token to the end of the
document (it contains the D3 heading and body), while the D3 section is
still separately extracted from the full text. -/
theorem extract_8d_sections_nonexclusive :
    lookupKey "D1" (extract_8d_sections "D1: alpha\nD3: beta".data) =
      some "alpha\nD3: beta".data
    ∧ lookupKey "D3" (extract_8d_sections "D1: alpha\nD3: beta".data) =
      some "beta".data
    ∧ lookupKey "D2" (extract_8d_sections "D1: alpha\nD3: beta".data) = some []
    ∧ containsSub "D3: beta".data "alpha\nD3: beta".data = true
    ∧ findLabel '2' "D1: alpha\nD3: beta".data = none := by
  decide

/-! ## `extract_evidence_snippet` (server.py lines 60-105) -/

/-- The line-terminator set of Python `str.splitlines`. -/
def lineBreak (c : Char) : Bool :=
  c == '\n' || c == '\r' || c == '\x0b' || c == '\x0c' || c == '\x1c' ||
  c == '\x1d' || c == '\x1e' || c == '\x85' || c == '\u2028' || c == '\u2029'

/-- Worker for `splitLines`; `acc` is the reversed current line. -/
def splitLinesGo : List Char → List Char → List (List Char)
  | [], acc => if acc.isEmpty then [] else [acc.reverse]
  | '\r' :: '\n' :: rest, acc => acc.reverse :: splitLinesGo rest []
  | c :: rest, acc =>
    if lineBreak c then acc.reverse :: splitLinesGo rest []
    else splitLinesGo rest (c :: acc)

/-- Python `str.splitlines()`. -/
def splitLines (l : List Char) : List (List Char) := splitLinesGo l []

/-- Worker for `collapseWS`; the flag records whether the previous
character was whitespace (already emitted as one space). -/
def collapseGo : Bool → List Char → List Char
  | _, [] => []
  | inRun, c :: rest =>
    if pySpace c then
      if inRun then collapseGo true rest else ' ' :: collapseGo true rest
    else c :: collapseGo false rest

/-- Python `re.sub(r"\s+", " ", s)`: every maximal whitespace run
becomes a single space. -/
def collapseWS (l : List Char) : List Char := collapseGo false l

/-- One entry of `raw_lines`: `re.sub(r"\s+", " ", ln.strip())`. -/
def normLine (ln : List Char) : List Char := collapseWS (pyStrip ln)

/-- The `raw_lines` list comprehension. -/
def rawLines (text : List Char) : List (List Char) :=
  ((splitLines text).filter (fun ln => !(pyStrip ln).isEmpty)).map normLine

def heading_markers : List (List Char) :=
  strs ["(ICA)", "(PCA)", "Interim Containment", "Permanent Corrective", "Validation of", "System/Process Controls"]

/-- A character of the class `[A-Z0-9\s\-\(\)\[\]#:·•]`. -/
def headingClassChar (c : Char) : Bool :=
  (decide ('A' ≤ c) && decide (c ≤ 'Z')) || c.isDigit || pySpace c ||
  c == '-' || c == '(' || c == ')' || c == '[' || c == ']' || c == '#' ||
  c == ':' || c == '·' || c == '•'

/-- The nested predicate `is_heading_like`. -/
def is_heading_like (line : List Char) : Bool :=
  if line.length < 18 then true
  else if !line.isEmpty && line.all headingClassChar then true
  else if anyKeyword line heading_markers && !line.any Char.isDigit then true
  else if line.getLast? == some ':' && !line.any Char.isDigit then true
  else false

def unit_tokens : List (List Char) :=
  strs ["%", "mpa", "pcs", "lot", "0/", "sop", "coa", "cpk", "ppm"]

def verb_tokens : List (List Char) :=
  strs ["screen", "sort", "inspect", "segreg", "hold", "stop ship", "lock", "verify", "update", "train", "recipe"]

/-- `hits = sum(1 for kw in preferred_keywords if kw and kw.lower() in line.lower())`. -/
def kwHits (preferred : List (List Char)) (line : List Char) : Nat :=
  (preferred.filter
    (fun kw => !kw.isEmpty && containsSub (pyLower kw) (pyLower line))).length

/-- The keyword contribution of `score`: `if hits: s += 5 + min(hits, 3)`
guarded by `if preferred_keywords:` (an absent or empty keyword list
contributes nothing). -/
def kwScore (preferred : List (List Char)) (line : List Char) : Nat :=
  if !preferred.isEmpty then
    (if 0 < kwHits preferred line then 5 + min (kwHits preferred line) 3 else 0)
  else 0

/-- The nested scoring function `score` of `extract_evidence_snippet`. -/
def score (preferred : List (List Char)) (line : List Char) : Nat :=
  kwScore preferred line
  + (if line.any Char.isDigit then 3 else 0)
  + (if anyKeyword line unit_tokens then 2 else 0)
  + (if anyKeyword line verb_tokens then 2 else 0)
  + (if 40 ≤ line.length then 1 else 0)

/-- Python `max(candidates, key=score)` over `x :: l`: scan left to
right, keeping the first element of maximal score. -/
def pickMax (f : List Char → Nat) (x : List Char) (l : List (List Char)) : List Char :=
  l.foldl (fun best y => if f best < f y then y else best) x

/-- Python slice `l[:k]`, including the negative-index convention. -/
def pySliceStop (k : Int) (l : List Char) : List Char :=
  if 0 ≤ k then l.take k.toNat else l.take (l.length - k.natAbs)

/-- The sentinel string. -/
def notFound : List Char := "Not Found".data

/-- `extract_evidence_snippet` from the source.  The `max_len` parameter
is a Python `int` (modelled as `Int`); `preferred` models
`preferred_keywords`, with `None` and `[]` identified (both are falsy
and yield no keyword score). -/
def extract_evidence_snippet (text : List Char) (max_len : Int)
    (preferred : List (List Char)) : List Char :=
  if text.isEmpty || (pyStrip text).isEmpty then notFound
  else
    match rawLines text with
    | [] => notFound
    | r :: rs =>
      let snippet :=
        match (r :: rs).filter (fun ln => !is_heading_like ln) with
        | [] => pickMax (score preferred) r rs
        | c :: cs => pickMax (score preferred) c cs
      if snippet.isEmpty || (pyStrip snippet).isEmpty then notFound
      else if max_len < (snippet.length : Int) then
        pyRstrip (pySliceStop (max_len - 3) snippet) ++ "...".data
      else snippet

/-! ## Claim C9 -/

/-- Claim C9 (amended): a candidate line containing at least one
preferred keyword receives a keyword contribution of exactly
`5 + min(hits, 3)` on top of the keyword-independent score — one extra
point per hit up to the first three; in particular a single hit
contributes exactly 6, not 5. -/
theorem score_keyword_rule (preferred : List (List Char)) (line : List Char)
    (h : 0 < kwHits preferred line) :
    score preferred line = score [] line + (5 + min (kwHits preferred line) 3) := by
  have hne : (!preferred.isEmpty) = true := by
    cases preferred with
    | nil => simp [kwHits] at h
    | cons a l => rfl
  have h0 : kwScore [] line = 0 := by simp [kwScore]
  have h1 : kwScore preferred line = 5 + min (kwHits preferred line) 3 := by
    simp [kwScore, hne, h]
  simp only [score, h0, h1]
  omega

/-- Witness for claim C9 at a concrete single-hit line. -/
theorem score_keyword_rule_witness :
    score ["foo".data] "foo".data =
      score [] "foo".data + (5 + min (kwHits ["foo".data] "foo".data) 3) :=
  score_keyword_rule ["foo".data] "foo".data (by decide)

/-- Counterexample to claim C9 as stated: a line with exactly one
keyword hit (and no other scoring contribution) scores 6, not 5. -/
theorem score_keyword_rule_counterexample :
    kwHits ["foo".data] "foo".data = 1
    ∧ score ["foo".data] "foo".data = 6
    ∧ score [] "foo".data = 0 := by decide

/-! ## Claim C6 -/

theorem length_dropWhile_le (p : Char → Bool) (l : List Char) :
    (l.dropWhile p).length ≤ l.length := by
  induction l with
  | nil => simp
  | cons c rest ih =>
    rw [List.dropWhile_cons]
    split
    · exact Nat.le_succ_of_le ih
    · simp

theorem length_pyRstrip_le (l : List Char) : (pyRstrip l).length ≤ l.length := by
  calc (pyRstrip l).length
      = (l.reverse.dropWhile pySpace).length := by simp [pyRstrip]
    _ ≤ l.reverse.length := length_dropWhile_le _ _
    _ = l.length := List.length_reverse l

theorem truncation_length_le (snippet : List Char) (max_len : Int)
    (h3 : 3 ≤ max_len) :
    ((pyRstrip (pySliceStop (max_len - 3) snippet) ++ "...".data).length : Int)
      ≤ max_len := by
  have h1 : (pyRstrip (pySliceStop (max_len - 3) snippet)).length
      ≤ (pySliceStop (max_len - 3) snippet).length := length_pyRstrip_le _
  have h2 : (pySliceStop (max_len - 3) snippet).length ≤ (max_len - 3).toNat := by
    unfold pySliceStop
    rw [if_pos (by omega)]
    exact List.length_take_le _ _
  have h4 : ("...".data).length = 3 := by decide
  rw [List.length_append, h4]
  omega

/-- Claim C6 (amended): whenever the requested maximum length is at
least 9 (the length of the sentinel "Not Found"), the selector's result
— the sentinel, an untruncated line, or a truncated line with ellipsis —
never exceeds `max_len` characters. -/
theorem evidence_snippet_length_le (text : List Char) (max_len : Int)
    (preferred : List (List Char)) (h : 9 ≤ max_len) :
    ((extract_evidence_snippet text max_len preferred).length : Int) ≤ max_len := by
  have h9 : ((notFound.length : Nat) : Int) ≤ max_len := by
    have : notFound.length = 9 := by decide
    omega
  unfold extract_evidence_snippet
  split
  · exact h9
  · rcases hraw : rawLines text with _ | ⟨r, rs⟩
    · exact h9
    · simp only
      split
      · exact h9
      · split
        · exact truncation_length_le _ _ (by omega)
        · omega

/-- Witness for claim C6 at a concrete input. -/
theorem evidence_snippet_length_le_witness :
    ((extract_evidence_snippet "ab".data 9 []).length : Int) ≤ 9 :=
  evidence_snippet_length_le "ab".data 9 [] (by decide)

/-- Counterexample to claim C6 as stated: for the positive maximum
length 3 and empty section text, the selector returns the sentinel
"Not Found", whose 9 characters exceed the requested maximum. -/
theorem evidence_snippet_length_counterexample :
    extract_evidence_snippet [] 3 [] = notFound
    ∧ ¬ ((extract_evidence_snippet [] 3 []).length : Int) ≤ 3 := by
  constructor
  · rfl
  · decide

/-! ## Claim C7: helper lemmas -/

theorem mem_dropWhile_of_not {p : Char → Bool} {c : Char} {l : List Char}
    (hcp : ¬ p c = true) (hc : c ∈ l) : c ∈ l.dropWhile p := by
  rw [← List.takeWhile_append_dropWhile p l] at hc
  rcases List.mem_append.mp hc with h | h
  · exact absurd (List.mem_takeWhile_imp h) hcp
  · exact h

theorem mem_of_mem_dropWhile {p : Char → Bool} {c : Char} {l : List Char}
    (hc : c ∈ l.dropWhile p) : c ∈ l := by
  rw [← List.takeWhile_append_dropWhile p l]
  exact List.mem_append.mpr (Or.inr hc)

theorem pyStrip_eq_nil_iff (l : List Char) :
    pyStrip l = [] ↔ ∀ c ∈ l, pySpace c = true := by
  simp only [pyStrip, pyRstrip, pyLstrip, List.reverse_eq_nil_iff,
    List.dropWhile_eq_nil_iff, List.mem_reverse]
  constructor
  · intro hall c hc
    by_cases hw : pySpace c = true
    · exact hw
    · exact hall c (mem_dropWhile_of_not hw hc)
  · intro hall c hc
    exact hall c (mem_of_mem_dropWhile hc)

theorem mem_pyStrip_of_not {c : Char} {l : List Char}
    (hcw : ¬ pySpace c = true) (hc : c ∈ l) : c ∈ pyStrip l := by
  have h1 : c ∈ pyLstrip l := mem_dropWhile_of_not hcw hc
  have h2 : c ∈ (pyLstrip l).reverse := List.mem_reverse.mpr h1
  have h3 : c ∈ (pyLstrip l).reverse.dropWhile pySpace :=
    mem_dropWhile_of_not hcw h2
  simpa [pyStrip, pyRstrip, List.mem_reverse] using h3

theorem mem_collapseGo_of_not {c : Char} (hcw : ¬ pySpace c = true) :
    ∀ (l : List Char) (b : Bool), c ∈ l → c ∈ collapseGo b l := by
  intro l
  induction l with
  | nil => intro b h; exact absurd h (List.not_mem_nil c)
  | cons d rest ih =>
    intro b hc
    by_cases hd : pySpace d = true
    · have hcd : c ∈ rest := by
        rcases List.mem_cons.mp hc with rfl | h
        · exact absurd hd hcw
        · exact h
      cases b
      · rw [show collapseGo false (d :: rest) = ' ' :: collapseGo true rest from by
          simp [collapseGo, hd]]
        exact List.mem_cons_of_mem _ (ih true hcd)
      · rw [show collapseGo true (d :: rest) = collapseGo true rest from by
          simp [collapseGo, hd]]
        exact ih true hcd
    · rcases List.mem_cons.mp hc with rfl | h
      · rw [show collapseGo b (c :: rest) = c :: collapseGo false rest from by
          simp [collapseGo, hcw]]
        exact List.mem_cons_self c _
      · rw [show collapseGo b (d :: rest) = d :: collapseGo false rest from by
          simp [collapseGo, hd]]
        exact List.mem_cons_of_mem _ (ih false h)

set_option maxHeartbeats 2000000 in
theorem splitLinesGo_all_space :
    ∀ (l acc : List Char),
      (∀ c ∈ l, pySpace c = true) → (∀ c ∈ acc, pySpace c = true) →
      ∀ ln ∈ splitLinesGo l acc, ∀ c ∈ ln, pySpace c = true := by
  intro l acc
  induction l, acc using splitLinesGo.induct with
  | case1 acc hemp =>
    intro _ _ ln hln c hc
    rw [splitLinesGo, if_pos hemp] at hln
    exact absurd hln (List.not_mem_nil ln)
  | case2 acc hemp =>
    intro _ hacc ln hln c hc
    rw [splitLinesGo, if_neg hemp] at hln
    rcases List.mem_cons.mp hln with rfl | h
    · exact hacc c (List.mem_reverse.mp hc)
    · exact absurd h (List.not_mem_nil ln)
  | case3 rest acc ih =>
    intro hl hacc ln hln c hc
    rw [splitLinesGo] at hln
    rcases List.mem_cons.mp hln with rfl | h
    · exact hacc c (List.mem_reverse.mp hc)
    · exact ih (fun x hx => hl x (by simp [hx]))
        (fun x hx => absurd hx (List.not_mem_nil x)) ln h c hc
  | case4 d rest acc hne hbrk ih =>
    intro hl hacc ln hln c hc
    rw [splitLinesGo] at hln
    rw [if_pos hbrk] at hln
    rcases List.mem_cons.mp hln with rfl | h
    · exact hacc c (List.mem_reverse.mp hc)
    · exact ih (fun x hx => hl x (by simp [hx]))
        (fun x hx => absurd hx (List.not_mem_nil x)) ln h c hc
    exact hne
  | case5 d rest acc hne hbrk ih =>
    intro hl hacc ln hln c hc
    rw [splitLinesGo] at hln
    rw [if_neg hbrk] at hln
    · refine ih (fun x hx => hl x (by simp [hx])) ?_ ln hln c hc
      intro x hx
      rcases List.mem_cons.mp hx with rfl | h
      · exact hl x (by simp)
      · exact hacc x h
    · exact hne

theorem rawLines_of_strip_nil {text : List Char} (h : pyStrip text = []) :
    rawLines text = [] := by
  have hall : ∀ c ∈ text, pySpace c = true := (pyStrip_eq_nil_iff text).mp h
  have hlines : ∀ ln ∈ splitLines text, ∀ c ∈ ln, pySpace c = true :=
    splitLinesGo_all_space text [] hall
      (fun x hx => absurd hx (List.not_mem_nil x))
  have hfilter :
      (splitLines text).filter (fun ln => !(pyStrip ln).isEmpty) = [] := by
    rw [List.filter_eq_nil_iff]
    intro ln hln
    have : pyStrip ln = [] := (pyStrip_eq_nil_iff ln).mpr (hlines ln hln)
    simp [this]
  simp [rawLines, hfilter]

theorem rawLines_mem_not_blank {text m : List Char} (hm : m ∈ rawLines text) :
    ¬ m.isEmpty = true ∧ ¬ (pyStrip m).isEmpty = true := by
  simp only [rawLines, List.mem_map, List.mem_filter] at hm
  obtain ⟨ln, ⟨hln, hnb⟩, rfl⟩ := hm
  have hne : ¬ pyStrip ln = [] := by
    intro hnil
    rw [hnil] at hnb
    exact absurd hnb (by decide)
  have hex : ∃ c ∈ ln, ¬ pySpace c = true := by
    by_contra hcon
    push_neg at hcon
    exact hne ((pyStrip_eq_nil_iff ln).mpr hcon)
  obtain ⟨c, hc, hcw⟩ := hex
  have hc1 : c ∈ pyStrip ln := mem_pyStrip_of_not hcw hc
  have hc2 : c ∈ normLine ln := mem_collapseGo_of_not hcw _ false hc1
  constructor
  · intro hemp
    rw [List.isEmpty_iff.mp hemp] at hc2
    exact absurd hc2 (List.not_mem_nil c)
  · intro hemp
    exact hcw ((pyStrip_eq_nil_iff _).mp (List.isEmpty_iff.mp hemp) c hc2)

theorem pickMax_mem (f : List Char → Nat) :
    ∀ (l : List (List Char)) (x : List Char), pickMax f x l ∈ x :: l := by
  intro l
  induction l with
  | nil => intro x; simp [pickMax]
  | cons y rest ih =>
    intro x
    have hstep : pickMax f x (y :: rest)
        = pickMax f (if f x < f y then y else x) rest := rfl
    rw [hstep]
    rcases List.mem_cons.mp (ih (if f x < f y then y else x)) with h | h
    · rw [h]
      split <;> simp
    · exact List.mem_cons_of_mem _ (List.mem_cons_of_mem _ h)

theorem truncated_ne_notFound (l : List Char) :
    l ++ "...".data ≠ notFound := by
  intro h
  have h2 : ("...".data).getLast? = some '.' := by decide
  have h1 : (l ++ "...".data).getLast? = some '.' := by
    rw [List.getLast?_append, h2]
    rfl
  rw [h] at h1
  exact absurd h1 (by decide)

/-- Claim C7 (amended): the selector returns the sentinel whenever the
normalised input has no non-blank lines; conversely a "Not Found" return
means either that there were no non-blank lines, or that the literal
string "Not Found" itself occurs among the normalised lines (and was the
selected line). -/
theorem evidence_snippet_not_found_characterization (text : List Char)
    (max_len : Int) (preferred : List (List Char)) :
    (rawLines text = [] → extract_evidence_snippet text max_len preferred = notFound)
    ∧ (extract_evidence_snippet text max_len preferred = notFound →
        rawLines text = [] ∨ notFound ∈ rawLines text) := by
  constructor
  · intro hraw
    unfold extract_evidence_snippet
    split
    · rfl
    · rw [hraw]
  · intro hres
    by_cases hempty : (text.isEmpty || (pyStrip text).isEmpty) = true
    · left
      rcases (by simpa using hempty :
          text.isEmpty = true ∨ (pyStrip text).isEmpty = true) with h | h
      · rw [List.isEmpty_iff.mp h]
        rfl
      · exact rawLines_of_strip_nil (List.isEmpty_iff.mp h)
    · rcases hraw : rawLines text with _ | ⟨r, rs⟩
      · exact Or.inl rfl
      · right
        rw [extract_evidence_snippet.eq_def, if_neg hempty, hraw] at hres
        simp only at hres
        set snippet :=
          (match (r :: rs).filter (fun ln => !is_heading_like ln) with
            | [] => pickMax (score preferred) r rs
            | c :: cs => pickMax (score preferred) c cs) with hsnip
        have hmem : snippet ∈ r :: rs := by
          rw [hsnip]
          rcases hc : (r :: rs).filter (fun ln => !is_heading_like ln) with _ | ⟨c, cs⟩
          · exact pickMax_mem _ rs r
          · have h1 : pickMax (score preferred) c cs ∈ c :: cs := pickMax_mem _ cs c
            rw [← hc] at h1
            exact List.mem_of_mem_filter h1
        have hmemraw : snippet ∈ rawLines text := by rw [hraw]; exact hmem
        have hblank := rawLines_mem_not_blank hmemraw
        have hcond : ¬ (snippet.isEmpty || (pyStrip snippet).isEmpty) = true := by
          simp only [Bool.or_eq_true]
          rintro (h | h)
          · exact hblank.1 h
          · exact hblank.2 h
        rw [if_neg hcond] at hres
        by_cases hlen : max_len < (snippet.length : Int)
        · rw [if_pos hlen] at hres
          exact absurd hres (truncated_ne_notFound _)
        · rw [if_neg hlen] at hres
          rw [← hres]
          exact hmem

/-- Witness for claim C7: empty section text yields the sentinel. -/
theorem evidence_snippet_not_found_witness :
    extract_evidence_snippet [] 160 [] = notFound :=
  (evidence_snippet_not_found_characterization [] 160 []).1 rfl

/-- Counterexample to claim C7 as stated: the section text "Not Found"
has a non-blank line, yet the selector returns the string "Not Found"
(the selected line is the literal sentinel). -/
theorem evidence_snippet_not_found_counterexample :
    extract_evidence_snippet "Not Found".data 160 [] = notFound
    ∧ rawLines "Not Found".data ≠ [] := by
  constructor
  · decide
  · decide

end QSkill8D

